import Mathlib

/-!
Shallow embedding of `src/src/gcsfilesystem.cpp` (class `ovms::GCSFileSystem`).

Strings are modelled as `List Char`.  The C++ `std::string::find` family is
modelled exactly, including the `npos` arithmetic that the source performs:
`find` results are added to `size_t` values (unsigned, modulo 2^64) and then
stored into `int` variables; `npos` stored into an `int` becomes `-1`.
A call of `substr(pos, ...)` with `pos > size()` throws `std::out_of_range`;
thrown exceptions are modelled by `Except.error ()`, which every operation
propagates (no function in this file catches).

The GCS client, the local filesystem and the other collaborators that live
outside this translation unit are an explicit environment (`Env`):
`GetObjectMetadata` success/failure, the `ListObjects` result sequence
(each element either a good entry carrying its key, or an errored entry),
`ReadObject` stream contents, `CreateLocalDir` results, local `ofstream`
write success, `createTempPath` results and the `acceptedFiles` suffix set.
Local side effects are recorded as an `FsEvent` trace.

The recursion of `downloadFileFolder` is not structurally terminating on
adversarial remote namespaces, so it takes a fuel parameter; exhausted fuel
is `none`, which no C++ behaviour maps to.
-/

namespace GCSFS

abbrev Str := List Char

/-- Status codes surfaced by the module (`StatusCode` in the source).
`EXT n` stands for the further codes that external collaborators
(`CreateLocalDir`, `createTempPath`) may produce. -/
inductive StatusCode where
  | OK
  | GCS_BUCKET_NOT_FOUND
  | GCS_FILE_NOT_FOUND
  | GCS_FILE_INVALID
  | GCS_INVALID_ACCESS
  | FILE_INVALID
  | EXT (n : Nat)
  deriving DecidableEq

/-- Local filesystem side effects performed by the module.
`write p data streamOk` records that the bytes `data` were streamed to the
local file `p`; `streamOk` is the state of the output stream, which the
source never inspects. -/
inductive FsEvent where
  | mkdir (p : Str)
  | write (p : Str) (data : Str) (streamOk : Bool)
  deriving DecidableEq

/-- External collaborators of the translation unit: the GCS client
(`client_`), the local filesystem layer and the accepted-file suffix set
(declared outside src/). -/
structure Env where
  metadataOk : Str → Str → Bool
  listObjects : Str → Str → List (Option Str)
  readObject : Str → Str → Option Str
  createLocalDir : Str → StatusCode
  writeOk : Str → Bool
  tempStatus : StatusCode
  tempPath : Str
  acceptedFiles : List Str

/-- Index of the first occurrence of `pat` in the scanned list
(`std::string::find(pat)`); `none` is `npos`. -/
def subIdx (pat : Str) : Str → Option Nat
  | [] => if pat = [] then some 0 else none
  | c :: rest =>
    if pat.isPrefixOf (c :: rest) then some 0 else (subIdx pat rest).map (· + 1)

/-- C++ `s.find(pat)`. -/
def strFind (s pat : Str) : Option Nat := subIdx pat s

/-- Index of the first occurrence of the character `c`. -/
def charIdx (c : Char) : Str → Option Nat
  | [] => none
  | d :: rest => if d = c then some 0 else (charIdx c rest).map (· + 1)

/-- C++ `s.find(c, pos)`: first occurrence of `c` at or after `pos`
(`none` when `pos > size()` or there is none). -/
def charFindFrom (s : Str) (c : Char) (pos : Nat) : Option Nat :=
  (charIdx c (s.drop pos)).map (pos + ·)

/-- Conversion of a C++ `int` value to `size_t` (two's complement, 2^64). -/
def intToSizeT (x : Int) : Nat := (x % (2 ^ 64 : Int)).toNat

/-- C++ `s.substr(pos)`: throws `std::out_of_range` when `pos > size()`. -/
def substrFrom (s : Str) (pos : Nat) : Except Unit Str :=
  if pos ≤ s.length then Except.ok (s.drop pos) else Except.error ()

/-- C++ `s.substr(pos, len)`: throws when `pos > size()`; `len` is clamped. -/
def substrLen (s : Str) (pos len : Nat) : Except Unit Str :=
  if pos ≤ s.length then Except.ok ((s.drop pos).take len) else Except.error ()

/-- The constant `GCS_URL_PREFIX = "gs://"` of the source. -/
def gcsUrlHead : Str := "gs://".toList

/-- The `std::string::npos` value, as the `size_t` it is. -/
def nposN : Nat := 2 ^ 64 - 1

/-- Conversion of a C++ `size_t` value to the 32-bit `int` the source
stores find positions into: the low 32 bits, read in two's complement
(so `npos` becomes `-1`, and a position at or above `2^31` wraps
negative). -/
def cppInt (n : Nat) : Int :=
  if n % 2 ^ 32 < 2 ^ 31 then ((n % 2 ^ 32 : Nat) : Int)
  else ((n % 2 ^ 32 : Nat) : Int) - 2 ^ 32

/-- `GCSFileSystem::parsePath` (gcsfilesystem.cpp:45-60).
`bucket_start` is `path.find("gs://") + 5` computed in `size_t` and stored
into a 32-bit `int` (`cppInt`): when the marker is absent, `npos + 5`
wraps around to `4`.  `bucket_end` is `path.find('/', bucket_start)`
stored into an `int`: `npos` becomes `-1`, and a found position at or
above `2^31` wraps negative. -/
def parsePath (path : Str) : Except Unit (StatusCode × Str × Str) :=
  let bucketStart : Int :=
    cppInt ((match strFind path gcsUrlHead with
      | some p => p
      | none => nposN) + gcsUrlHead.length)
  let bucketEnd : Int :=
    cppInt (match charFindFrom path '/' (intToSizeT bucketStart) with
      | some p => p
      | none => nposN)
  if bucketStart < bucketEnd then
    match substrLen path (intToSizeT bucketStart) (intToSizeT (bucketEnd - bucketStart)),
        substrFrom path (intToSizeT (bucketEnd + 1)) with
    | Except.error (), _ => Except.error ()
    | _, Except.error () => Except.error ()
    | Except.ok bucket, Except.ok object =>
      if bucket = [] then Except.ok (StatusCode.GCS_BUCKET_NOT_FOUND, bucket, object)
      else Except.ok (StatusCode.OK, bucket, object)
  else
    match substrFrom path (intToSizeT bucketStart) with
    | Except.error () => Except.error ()
    | Except.ok bucket =>
      if bucket = [] then Except.ok (StatusCode.GCS_BUCKET_NOT_FOUND, bucket, ([] : Str))
      else Except.ok (StatusCode.OK, bucket, ([] : Str))

/-- Modelled from the spec: `appendSlash` (stringutils.hpp, which is not
under src/) normalizes a key with a trailing separator; a key that is empty
or already ends in a slash is unchanged. -/
def appendSlash (s : Str) : Str :=
  if s = [] then s
  else if s.getLast? = some '/' then s
  else s ++ ['/']

/-- Modelled from the spec: `endsWith` (stringutils.hpp, which is not under
src/) is a plain suffix test. -/
def endsWith (s suf : Str) : Bool := suf.isSuffixOf s

/-- Modelled from the spec: `joinPath` (filesystem.hpp, which is not under
src/) joins two path segments with a single `/` separator. -/
def joinPath (a b : Str) : Str :=
  if a = [] then b
  else if a.getLast? = some '/' then a ++ b
  else a ++ '/' :: b

/-- `GCSFileSystem::isDirectory` (gcsfilesystem.cpp:129-152): after a
successful parse, an empty path is reported a directory outright; otherwise
one successful entry in the listing of `appendSlash object` makes the path a
directory (errored entries are skipped by the `if (meta)` guard). -/
def isDirectory (env : Env) (path : Str) : Except Unit (StatusCode × Bool) :=
  match parsePath path with
  | Except.error () => Except.error ()
  | Except.ok (st, bucket, object) =>
    if st ≠ StatusCode.OK then Except.ok (st, false)
    else if path = [] then Except.ok (StatusCode.OK, true)
    else
      Except.ok (StatusCode.OK,
        (env.listObjects bucket (appendSlash object)).any (fun m => m.isSome))

/-- `GCSFileSystem::fileExists` (gcsfilesystem.cpp:100-127): metadata probe
first; on probe failure fall back to `isDirectory`. -/
def fileExists (env : Env) (path : Str) : Except Unit (StatusCode × Bool) :=
  match parsePath path with
  | Except.error () => Except.error ()
  | Except.ok (st, bucket, object) =>
    if st ≠ StatusCode.OK then Except.ok (st, false)
    else if env.metadataOk bucket object then Except.ok (StatusCode.OK, true)
    else
      match isDirectory env path with
      | Except.error () => Except.error ()
      | Except.ok (dirSt, isDir) =>
        if dirSt ≠ StatusCode.OK then Except.ok (dirSt, false)
        else Except.ok (StatusCode.OK, isDir)

/-- Basename extraction of `getDirectoryContents` (gcsfilesystem.cpp:178-182):
`name_start = name.find(full_directory) + full_directory.size()` (with the
`npos` wraparound when absent), `name_end = name.find('/', name_start)`
(`-1` when absent), then `name.substr(name_start, name_end - name_start)`
where a negative length converts to a huge `size_t` and is clamped. -/
def gdcEntryName (fullDir name : Str) : Except Unit Str :=
  let nameStart : Nat :=
    match strFind name fullDir with
    | some p => p + fullDir.length
    | none => (2 ^ 64 - 1 + fullDir.length) % 2 ^ 64
  let nameEnd : Int :=
    match charFindFrom name '/' nameStart with
    | some p => (p : Int)
    | none => -1
  substrLen name nameStart (intToSizeT (nameEnd - (nameStart : Int)))

/-- Lexicographic order of `std::string` used by `std::set<std::string>`. -/
def strLt : Str → Str → Bool
  | _, [] => false
  | [], _ :: _ => true
  | a :: as, b :: bs => if a < b then true else if b < a then false else strLt as bs

/-- Ordered insertion into the `std::set<std::string>` model. -/
def setInsert (x : Str) : List Str → List Str
  | [] => [x]
  | y :: ys =>
    if strLt x y then x :: y :: ys
    else if x = y then y :: ys
    else y :: setInsert x ys

/-- The listing loop of `getDirectoryContents` (gcsfilesystem.cpp:166-183):
an errored entry aborts with `GCS_INVALID_ACCESS` (the caller's set keeps
what was inserted so far); an entry equal to the prefix itself is skipped;
any other entry has its basename inserted into the set. -/
def gdcLoop (fullDir : Str) : List (Option Str) → List Str → Except Unit (StatusCode × List Str)
  | [], contents => Except.ok (StatusCode.OK, contents)
  | none :: _, contents => Except.ok (StatusCode.GCS_INVALID_ACCESS, contents)
  | some name :: rest, contents =>
    if name = fullDir then gdcLoop fullDir rest contents
    else
      match gdcEntryName fullDir name with
      | Except.error () => Except.error ()
      | Except.ok seg => gdcLoop fullDir rest (setInsert seg contents)

/-- `GCSFileSystem::getDirectoryContents` (gcsfilesystem.cpp:154-186).
`contents` is the caller's out-parameter set. -/
def getDirectoryContents (env : Env) (path : Str) (contents : List Str) :
    Except Unit (StatusCode × List Str) :=
  match parsePath path with
  | Except.error () => Except.error ()
  | Except.ok (st, bucket, directoryPath) =>
    if st ≠ StatusCode.OK then Except.ok (st, contents)
    else
      gdcLoop (appendSlash directoryPath)
        (env.listObjects bucket (appendSlash directoryPath)) contents

/-- The probe-and-erase loops of `getDirectorySubdirs` / `getDirectoryFiles`
(gcsfilesystem.cpp:197-210, 224-237): every candidate is re-probed with
`isDirectory` on the joined path; with `keepDirs = true` non-directories are
erased, with `keepDirs = false` directories are erased; a failing probe
returns its status with the set as filtered so far. -/
def filterProbe (env : Env) (path : Str) (keepDirs : Bool) :
    List Str → Except Unit (StatusCode × List Str)
  | [] => Except.ok (StatusCode.OK, [])
  | item :: rest =>
    match isDirectory env (joinPath path item) with
    | Except.error () => Except.error ()
    | Except.ok (st, isDir) =>
      if st ≠ StatusCode.OK then Except.ok (st, item :: rest)
      else
        match filterProbe env path keepDirs rest with
        | Except.error () => Except.error ()
        | Except.ok (st2, kept) =>
          if isDir = keepDirs then Except.ok (st2, item :: kept)
          else Except.ok (st2, kept)

/-- `GCSFileSystem::getDirectorySubdirs` (gcsfilesystem.cpp:188-213). -/
def getDirectorySubdirs (env : Env) (path : Str) (subdirs : List Str) :
    Except Unit (StatusCode × List Str) :=
  match getDirectoryContents env path subdirs with
  | Except.error () => Except.error ()
  | Except.ok (st, contents) =>
    if st ≠ StatusCode.OK then Except.ok (st, contents)
    else filterProbe env path true contents

/-- `GCSFileSystem::getDirectoryFiles` (gcsfilesystem.cpp:215-240). -/
def getDirectoryFiles (env : Env) (path : Str) (files : List Str) :
    Except Unit (StatusCode × List Str) :=
  match getDirectoryContents env path files with
  | Except.error () => Except.error ()
  | Except.ok (st, contents) =>
    if st ≠ StatusCode.OK then Except.ok (st, contents)
    else filterProbe env path false contents

/-- `GCSFileSystem::readTextFile` (gcsfilesystem.cpp:242-273).  The second
component models the out-parameter `contents`: `some data` exactly when the
source assigns it. -/
def readTextFile (env : Env) (path : Str) : Except Unit (StatusCode × Option Str) :=
  match fileExists env path with
  | Except.error () => Except.error ()
  | Except.ok (st, ex) =>
    if st ≠ StatusCode.OK then Except.ok (st, none)
    else if ex = false then Except.ok (StatusCode.GCS_FILE_NOT_FOUND, none)
    else
      match parsePath path with
      | Except.error () => Except.error ()
      | Except.ok (st2, bucket, object) =>
        if st2 ≠ StatusCode.OK then Except.ok (st2, none)
        else
          match env.readObject bucket object with
          | none => Except.ok (StatusCode.GCS_FILE_INVALID, none)
          | some data => Except.ok (StatusCode.OK, some data)

/-- `GCSFileSystem::downloadFile` (gcsfilesystem.cpp:275-288): on read
success the bytes are streamed to `local_path`; the output stream's state
(`env.writeOk local_path`, recorded in the event) is never checked and the
function returns `OK` regardless. -/
def downloadFile (env : Env) (remotePath localPath : Str) :
    Except Unit (StatusCode × List FsEvent) :=
  match readTextFile env remotePath with
  | Except.error () => Except.error ()
  | Except.ok (st, contents) =>
    if st ≠ StatusCode.OK then Except.ok (st, [])
    else
      Except.ok (StatusCode.OK,
        [FsEvent.write localPath (contents.getD []) (env.writeOk localPath)])

/-- The accepted-suffix test of the file loop (gcsfilesystem.cpp:366-368):
`std::any_of(acceptedFiles, [&f](x){ return f.size() > 0 && endsWith(f, x); })`. -/
def fileAccepted (accepted : List Str) (f : Str) : Bool :=
  accepted.any (fun x => decide (0 < f.length) && endsWith f x)

/-- The file loop of `downloadFileFolder` (gcsfilesystem.cpp:365-381):
accepted files are downloaded, a failing download is returned at once,
non-matching files are skipped silently. -/
def fileLoop (env : Env) (path localPath : Str) :
    List Str → Except Unit (StatusCode × List FsEvent)
  | [] => Except.ok (StatusCode.OK, [])
  | f :: rest =>
    if fileAccepted env.acceptedFiles f then
      match downloadFile env (joinPath path f) (joinPath localPath f) with
      | Except.error () => Except.error ()
      | Except.ok (st, evs) =>
        if st ≠ StatusCode.OK then Except.ok (st, evs)
        else
          match fileLoop env path localPath rest with
          | Except.error () => Except.error ()
          | Except.ok (st2, evs2) => Except.ok (st2, evs ++ evs2)
    else fileLoop env path localPath rest

/-- Outcome of the subdirectory loop: either it ran to completion, or it
early-returned out of `downloadFileFolder` with a status. -/
inductive LoopOut where
  | completed (evs : List FsEvent)
  | early (st : StatusCode) (evs : List FsEvent)
  deriving DecidableEq

/-- The subdirectory loop of `downloadFileFolder` (gcsfilesystem.cpp:347-363).
`statusVar` is the value of the enclosing local variable `status` when the
loop is entered (the `getDirectoryFiles` status, necessarily `OK`): when
`CreateLocalDir` fails, the source executes `return status;` — the stale
variable, not `mkdir_status` — so the early return carries `statusVar`.
A failing recursive descent is propagated as `download_dir_status`. -/
def dirLoopF (rec : Str → Str → Option (Except Unit (StatusCode × List FsEvent)))
    (env : Env) (path localPath : Str) (statusVar : StatusCode) :
    List Str → Option (Except Unit LoopOut)
  | [] => some (Except.ok (LoopOut.completed []))
  | d :: rest =>
    let localDir := joinPath localPath d
    if env.createLocalDir localDir ≠ StatusCode.OK then
      some (Except.ok (LoopOut.early statusVar [FsEvent.mkdir localDir]))
    else
      match rec (joinPath path d) localDir with
      | none => none
      | some (Except.error ()) => some (Except.error ())
      | some (Except.ok (st, evs)) =>
        if st ≠ StatusCode.OK then
          some (Except.ok (LoopOut.early st (FsEvent.mkdir localDir :: evs)))
        else
          match dirLoopF rec env path localPath statusVar rest with
          | none => none
          | some (Except.error ()) => some (Except.error ())
          | some (Except.ok (LoopOut.completed evs2)) =>
            some (Except.ok (LoopOut.completed (FsEvent.mkdir localDir :: (evs ++ evs2))))
          | some (Except.ok (LoopOut.early st2 evs2)) =>
            some (Except.ok (LoopOut.early st2 (FsEvent.mkdir localDir :: (evs ++ evs2))))

/-- Body of `GCSFileSystem::downloadFileFolder` (gcsfilesystem.cpp:322-383)
with the recursive call abstracted as `rec`.  A failing or negative
directory probe is mapped to `GCS_FILE_NOT_FOUND`; listing failures are
propagated; then the subdirectory loop runs, and only on its completion the
file loop. -/
def downloadFileFolderGo (env : Env)
    (rec : Str → Str → Option (Except Unit (StatusCode × List FsEvent)))
    (path localPath : Str) : Option (Except Unit (StatusCode × List FsEvent)) :=
  match isDirectory env path with
  | Except.error () => some (Except.error ())
  | Except.ok (st, isDir) =>
    if st ≠ StatusCode.OK then some (Except.ok (StatusCode.GCS_FILE_NOT_FOUND, []))
    else if isDir = false then some (Except.ok (StatusCode.GCS_FILE_NOT_FOUND, []))
    else
      match getDirectorySubdirs env path [] with
      | Except.error () => some (Except.error ())
      | Except.ok (stD, dirs) =>
        if stD ≠ StatusCode.OK then some (Except.ok (stD, []))
        else
          match getDirectoryFiles env path [] with
          | Except.error () => some (Except.error ())
          | Except.ok (stF, files) =>
            if stF ≠ StatusCode.OK then some (Except.ok (stF, []))
            else
              match dirLoopF rec env path localPath stF dirs with
              | none => none
              | some (Except.error ()) => some (Except.error ())
              | some (Except.ok (LoopOut.early stE evs)) => some (Except.ok (stE, evs))
              | some (Except.ok (LoopOut.completed evs)) =>
                match fileLoop env path localPath files with
                | Except.error () => some (Except.error ())
                | Except.ok (stFl, evs2) => some (Except.ok (stFl, evs ++ evs2))

/-- `GCSFileSystem::downloadFileFolder`, fueled: `none` means the fuel ran
out (the C++ recursion has no depth bound). -/
def downloadFileFolder (env : Env) (fuel : Nat) :
    Str → Str → Option (Except Unit (StatusCode × List FsEvent)) :=
  match fuel with
  | 0 => fun _ _ => none
  | f + 1 => fun path localPath => downloadFileFolderGo env (downloadFileFolder env f) path localPath

/-- Decimal rendering of a version number (`std::to_string`). -/
def natToStr (n : Nat) : Str := (toString n).toList

/-- Version path construction of `downloadModelVersions`
(gcsfilesystem.cpp:301-310): append a slash when missing, then the decimal
version number. -/
def verPath (base : Str) (v : Nat) : Str :=
  (if endsWith base ['/'] then base else base ++ ['/']) ++ natToStr v

/-- The version loop of `downloadModelVersions` (gcsfilesystem.cpp:300-317):
`fs::create_directory(lpath)` (result unchecked), then the tree download;
a non-OK status overwrites `result` but the loop continues. -/
def versionLoop (env : Env) (fuel : Nat) (path lroot : Str) :
    List Nat → StatusCode → Option (Except Unit (StatusCode × List FsEvent))
  | [], result => some (Except.ok (result, []))
  | v :: rest, result =>
    let lpath := verPath lroot v
    match downloadFileFolder env fuel (verPath path v) lpath with
    | none => none
    | some (Except.error ()) => some (Except.error ())
    | some (Except.ok (st, evs)) =>
      match versionLoop env fuel path lroot rest (if st ≠ StatusCode.OK then st else result) with
      | none => none
      | some (Except.error ()) => some (Except.error ())
      | some (Except.ok (finalSt, evs2)) =>
        some (Except.ok (finalSt, FsEvent.mkdir lpath :: (evs ++ evs2)))

/-- `GCSFileSystem::downloadModelVersions` (gcsfilesystem.cpp:290-320).
The `Str` component is the `local_path` out-parameter. -/
def downloadModelVersions (env : Env) (fuel : Nat) (path : Str) (versions : List Nat) :
    Option (Except Unit (StatusCode × Str × List FsEvent)) :=
  if env.tempStatus ≠ StatusCode.OK then some (Except.ok (env.tempStatus, [], []))
  else
    match versionLoop env fuel path env.tempPath versions StatusCode.OK with
    | none => none
    | some (Except.error ()) => some (Except.error ())
    | some (Except.ok (st, evs)) => some (Except.ok (st, env.tempPath, evs))

/-- Specification-side accepted-file test: the name ends with one of the
accepted suffix patterns. -/
def specAccepted (accepted : List Str) (f : Str) : Bool :=
  accepted.any (fun x => endsWith f x)

/-- Specification-side batch status: the status of the last version that
failed, `OK` when none failed. -/
def lastNonOK (l : List StatusCode) : StatusCode :=
  (l.filter (fun s => decide (s ≠ StatusCode.OK))).getLastD StatusCode.OK

/-- The tree download performed for one version by `downloadModelVersions`. -/
def verResult (env : Env) (fuel : Nat) (path lroot : Str) (v : Nat) :
    Option (Except Unit (StatusCode × List FsEvent)) :=
  downloadFileFolder env fuel (verPath path v) (verPath lroot v)

/-- Status component of a normally-returning tree download. -/
def resStatusD : Option (Except Unit (StatusCode × List FsEvent)) → StatusCode
  | some (Except.ok (s, _)) => s
  | _ => StatusCode.OK

/-- Event component of a normally-returning tree download. -/
def resEventsD : Option (Except Unit (StatusCode × List FsEvent)) → List FsEvent
  | some (Except.ok (_, e)) => e
  | _ => []

/-- Store with one object `m/d/f.bin` in bucket `b`, whose local directory
creation always fails. -/
def envC1 : Env := {
  metadataOk := fun _ _ => false
  listObjects := fun bu pr =>
    if bu = "b".toList then
      if pr = "m/".toList then [some "m/d/f.bin".toList]
      else if pr = "m/d/".toList then [some "m/d/f.bin".toList]
      else []
    else []
  readObject := fun _ _ => some "DATA".toList
  createLocalDir := fun _ => StatusCode.FILE_INVALID
  writeOk := fun _ => true
  tempStatus := StatusCode.OK
  tempPath := "/tmp".toList
  acceptedFiles := [".bin".toList] }

/-- Store whose listing of `a/` in bucket `b` yields one good entry `a/x`
followed by one errored entry. -/
def envC3 : Env := {
  metadataOk := fun _ _ => false
  listObjects := fun bu pr =>
    if bu = "b".toList ∧ pr = "a/".toList then [some "a/x".toList, none] else []
  readObject := fun _ _ => none
  createLocalDir := fun _ => StatusCode.OK
  writeOk := fun _ => true
  tempStatus := StatusCode.OK
  tempPath := "/tmp".toList
  acceptedFiles := [".bin".toList] }

/-- Store with exactly one object `k` in bucket `b` (with metadata and
contents `abc`), whose local writes fail. -/
def envOK : Env := {
  metadataOk := fun bu ob => decide (bu = "b".toList ∧ ob = "k".toList)
  listObjects := fun _ _ => []
  readObject := fun bu ob =>
    if bu = "b".toList ∧ ob = "k".toList then some "abc".toList else none
  createLocalDir := fun _ => StatusCode.OK
  writeOk := fun _ => false
  tempStatus := StatusCode.OK
  tempPath := "/t".toList
  acceptedFiles := [".bin".toList] }

/-- Store for the version-batch scenario: version 1 of model `m` in bucket
`b` holds `w.bin`, version 2 does not exist. -/
def envC5 : Env := {
  metadataOk := fun bu ob => decide (bu = "b".toList ∧ ob = "m/1/w.bin".toList)
  listObjects := fun bu pr =>
    if bu = "b".toList ∧ pr = "m/1/".toList then [some "m/1/w.bin".toList] else []
  readObject := fun bu ob =>
    if bu = "b".toList ∧ ob = "m/1/w.bin".toList then some "DATA".toList else none
  createLocalDir := fun _ => StatusCode.OK
  writeOk := fun _ => true
  tempStatus := StatusCode.OK
  tempPath := "/t".toList
  acceptedFiles := [".bin".toList] }

/-- Store with one readable object `d/w.bin` in bucket `b`. -/
def envC8 : Env := {
  metadataOk := fun bu ob => decide (bu = "b".toList ∧ ob = "d/w.bin".toList)
  listObjects := fun _ _ => []
  readObject := fun bu ob =>
    if bu = "b".toList ∧ ob = "d/w.bin".toList then some "DATA".toList else none
  createLocalDir := fun _ => StatusCode.OK
  writeOk := fun _ => true
  tempStatus := StatusCode.OK
  tempPath := "/t".toList
  acceptedFiles := [".bin".toList] }

/-- On the empty path, `parsePath` reaches `path.substr(4)` on a length-0
string and throws `std::out_of_range`. -/
theorem parsePath_nil : parsePath [] = Except.error () := rfl

theorem subIdx_isPrefixOf (pat s : Str) (h : pat.isPrefixOf s = true) :
    subIdx pat s = some 0 := by
  cases s with
  | nil =>
    cases pat with
    | nil => rfl
    | cons c r => simp [List.isPrefixOf] at h
  | cons c r => simp [subIdx, h]

theorem charIdx_not_mem (c : Char) (l : Str) (h : c ∉ l) : charIdx c l = none := by
  induction l with
  | nil => rfl
  | cons d r ih =>
    simp only [List.mem_cons, not_or] at h
    simp [charIdx, Ne.symm h.1, ih h.2]

theorem charIdx_append_cons (c : Char) (l r : Str) (h : c ∉ l) :
    charIdx c (l ++ c :: r) = some l.length := by
  induction l with
  | nil => simp [charIdx]
  | cons d t ih =>
    simp only [List.mem_cons, not_or] at h
    simp [charIdx, Ne.symm h.1, ih h.2]

theorem gcsUrlHead_length : gcsUrlHead.length = 5 := rfl

theorem intToSizeT_ofNat (n : Nat) (h : n < 2 ^ 64) : intToSizeT (n : Int) = n := by
  unfold intToSizeT
  omega

/-- C2: claimed, isDirectory on the empty path returns OK with
is_directory = true for every store state.  In fact `isDirectory` calls
`parsePath` before its empty-path check, and `parsePath("")` throws
`std::out_of_range` (`find` returns npos, `npos + 5` wraps to `4`, and
`substr(4)` on an empty string throws), so the empty-path branch of
`isDirectory` is unreachable and the call propagates the exception. -/
theorem c2_isDirectory_empty_path_throws (env : Env) :
    isDirectory env [] = Except.error () := rfl

/-- C1: the claim that a non-OK `CreateLocalDir` status is what
`downloadFileFolder` returns fails on the code: at the failing input below
(`CreateLocalDir` yields `FILE_INVALID` for the subdirectory `/tmp/d`),
the loop aborts but the function returns the stale `status` variable, which
holds `StatusCode::OK` from the preceding `getDirectoryFiles` call. -/
theorem c1_mkdir_failure_returns_ok :
    envC1.createLocalDir ("/tmp/d".toList) = StatusCode.FILE_INVALID ∧
    downloadFileFolder envC1 2 "gs://b/m".toList "/tmp".toList =
      some (Except.ok (StatusCode.OK, [FsEvent.mkdir "/tmp/d".toList])) :=
  ⟨rfl, rfl⟩

/-- C3 counterexample: on a listing with one good entry `a/x` followed by an
errored entry, `getDirectoryContents` does return `GCS_INVALID_ACCESS`, but
the caller's output set is not empty: it retains `x`, the name contributed
by the entry seen before the failing one. -/
theorem c3_counterexample :
    getDirectoryContents envC3 "gs://b/a".toList [] =
      Except.ok (StatusCode.GCS_INVALID_ACCESS, ["x".toList]) ∧
    ("x".toList : Str) ≠ [] :=
  ⟨rfl, by decide⟩

/-- C4 counterexample: instantiating the claim with the bucket string
`x/y` (non-empty) and key `z` fails: `parsePath` on `gs://x/y/z` recovers
bucket `x` and key `y/z`, not bucket `x/y` and key `z`. -/
theorem c4_counterexample :
    parsePath (gcsUrlHead ++ "x/y".toList ++ '/' :: "z".toList) =
      Except.ok (StatusCode.OK, "x".toList, "y/z".toList) ∧
    "x".toList ≠ "x/y".toList :=
  ⟨rfl, by decide⟩

theorem gdcLoop_append_err (fullDir : Str) (good rest : List (Option Str)) (init s : List Str)
    (hg : gdcLoop fullDir good init = Except.ok (StatusCode.OK, s)) :
    gdcLoop fullDir (good ++ none :: rest) init =
      Except.ok (StatusCode.GCS_INVALID_ACCESS, s) := by
  induction good generalizing init with
  | nil =>
    simp only [gdcLoop] at hg
    obtain rfl : init = s := by injection hg with h; exact congrArg Prod.snd h
    rfl
  | cons e g ih =>
    cases e with
    | none => simp [gdcLoop] at hg
    | some name =>
      simp only [List.cons_append, gdcLoop] at hg ⊢
      by_cases hn : name = fullDir
      · rw [if_pos hn] at hg ⊢
        exact ih init hg
      · rw [if_neg hn] at hg ⊢
        cases hge : gdcEntryName fullDir name with
        | error u =>
          cases u
          rw [hge] at hg
          simp at hg
        | ok seg =>
          rw [hge] at hg
          exact ih _ hg

/-- C3 amended: a listing split as `good ++ [error entry] ++ rest` (all of
`good` error-free, processed into the set state `s`) makes
`getDirectoryContents` return `GCS_INVALID_ACCESS` with the caller's set
left at `s`: the names from entries before the failing one remain, nothing
from the failing entry onward is added. -/
theorem c3_getDirectoryContents_amended (env : Env) (path b o : Str)
    (init s : List Str) (good rest : List (Option Str))
    (hp : parsePath path = Except.ok (StatusCode.OK, b, o))
    (hl : env.listObjects b (appendSlash o) = good ++ none :: rest)
    (hg : gdcLoop (appendSlash o) good init = Except.ok (StatusCode.OK, s)) :
    getDirectoryContents env path init =
      Except.ok (StatusCode.GCS_INVALID_ACCESS, s) := by
  unfold getDirectoryContents
  rw [hp]
  simp only [ne_eq, not_true_eq_false, if_false, reduceCtorEq]
  rw [hl]
  exact gdcLoop_append_err _ _ _ _ _ hg

/-- C3 witness: the amended statement applied to the concrete store
`envC3`. -/
theorem c3_getDirectoryContents_amended_witness :
    parsePath "gs://b/a".toList = Except.ok (StatusCode.OK, "b".toList, "a".toList) ∧
    envC3.listObjects "b".toList (appendSlash "a".toList) =
      [some "a/x".toList] ++ none :: [] ∧
    gdcLoop (appendSlash "a".toList) [some "a/x".toList] [] =
      Except.ok (StatusCode.OK, ["x".toList]) ∧
    getDirectoryContents envC3 "gs://b/a".toList [] =
      Except.ok (StatusCode.GCS_INVALID_ACCESS, ["x".toList]) :=
  ⟨rfl, rfl, rfl,
    c3_getDirectoryContents_amended envC3 "gs://b/a".toList "b".toList "a".toList
      [] ["x".toList] [some "a/x".toList] [] rfl rfl rfl⟩

/-- C4 amended: for every non-empty bucket string `b` that contains no `/`
separator, and short enough that the position of the slash after it fits
the source's 32-bit `int` (`5 + |b| < 2^31` — see
`parsePath_int_wraparound` for what the code does beyond that bound),
`parsePath` recovers `(b, k)` from `prefix+b+"/"+k` and `(b, "")` from
`prefix+b`; on the prefix alone it fails with `GCS_BUCKET_NOT_FOUND`. -/
theorem c4_parsePath_amended (b k : Str) (hb : b ≠ []) (hs : '/' ∉ b)
    (hlen : 5 + b.length < 2 ^ 31) :
    parsePath (gcsUrlHead ++ b ++ '/' :: k) = Except.ok (StatusCode.OK, b, k) ∧
    parsePath (gcsUrlHead ++ b) = Except.ok (StatusCode.OK, b, ([] : Str)) ∧
    parsePath gcsUrlHead = Except.ok (StatusCode.GCS_BUCKET_NOT_FOUND, [], ([] : Str)) := by
  have hblen : 0 < b.length := List.length_pos.mpr hb
  have hsz5 : intToSizeT 5 = 5 := by decide
  refine ⟨?_, ?_, rfl⟩
  · have hpfx : gcsUrlHead.isPrefixOf (gcsUrlHead ++ b ++ '/' :: k) = true := by
      rw [List.append_assoc]
      exact List.isPrefixOf_iff_prefix.mpr (List.prefix_append _ _)
    have hfind : strFind (gcsUrlHead ++ b ++ '/' :: k) gcsUrlHead = some 0 :=
      subIdx_isPrefixOf _ _ hpfx
    have hdrop5 : (gcsUrlHead ++ b ++ '/' :: k).drop 5 = b ++ '/' :: k := by
      rw [List.append_assoc]
      exact List.drop_left' rfl
    have hchar : charFindFrom (gcsUrlHead ++ b ++ '/' :: k) '/' 5 = some (5 + b.length) := by
      unfold charFindFrom
      rw [hdrop5, charIdx_append_cons _ _ _ hs]
      rfl
    unfold parsePath
    simp only [hfind]
    have hcast : cppInt (0 + List.length gcsUrlHead) = 5 := by decide
    rw [hcast, hsz5]
    simp only [hchar]
    have hbe : cppInt (5 + b.length) = ((5 + b.length : Nat) : Int) := by
      unfold cppInt
      rw [Nat.mod_eq_of_lt (by omega), if_pos (by omega)]
    rw [hbe]
    have hb64 : List.length b < 2 ^ 64 := by omega
    have hcast2 : ((↑(5 + List.length b) : Int) - 5) = ↑(List.length b) := by push_cast; ring
    have hcast3 : ((↑(5 + List.length b) : Int) + 1) = ↑(6 + List.length b) := by push_cast; ring
    rw [if_pos (by push_cast; omega)]
    rw [hcast2, hcast3, intToSizeT_ofNat _ hb64, intToSizeT_ofNat _ (by omega)]
    have hsub1 : substrLen (gcsUrlHead ++ b ++ '/' :: k) 5 (List.length b) = Except.ok b := by
      unfold substrLen
      rw [if_pos (by simp [List.length_append, gcsUrlHead_length]), hdrop5]
      exact congrArg Except.ok (List.take_left b ('/' :: k))
    have hsub2 : substrFrom (gcsUrlHead ++ b ++ '/' :: k) (6 + List.length b) = Except.ok k := by
      unfold substrFrom
      rw [if_pos (by simp [List.length_append, gcsUrlHead_length]; omega)]
      have hre : gcsUrlHead ++ b ++ '/' :: k = (gcsUrlHead ++ b ++ ['/']) ++ k := by simp
      rw [hre, List.drop_left' (by simp [List.length_append, gcsUrlHead_length]; omega)]
    rw [hsub1, hsub2]
    simp [hb]
  · have hpfx2 : gcsUrlHead.isPrefixOf (gcsUrlHead ++ b) = true :=
      List.isPrefixOf_iff_prefix.mpr (List.prefix_append _ _)
    have hfind2 : strFind (gcsUrlHead ++ b) gcsUrlHead = some 0 :=
      subIdx_isPrefixOf _ _ hpfx2
    have hdrop5b : (gcsUrlHead ++ b).drop 5 = b := List.drop_left' rfl
    have hchar2 : charFindFrom (gcsUrlHead ++ b) '/' 5 = none := by
      unfold charFindFrom
      rw [hdrop5b, charIdx_not_mem _ _ hs]
      rfl
    unfold parsePath
    simp only [hfind2]
    have hcast : cppInt (0 + List.length gcsUrlHead) = 5 := by decide
    rw [hcast, hsz5]
    simp only [hchar2]
    have hbneg : cppInt nposN = -1 := by decide
    rw [hbneg]
    rw [if_neg (by norm_num)]
    have hsub : substrFrom (gcsUrlHead ++ b) 5 = Except.ok b := by
      unfold substrFrom
      rw [if_pos (by simp [List.length_append, gcsUrlHead_length])]
      exact congrArg Except.ok hdrop5b
    rw [hsub]
    simp [hb]

/-- What forces the length bound of the C4 amendment: as soon as the slash
after the bucket sits at position `2^31` or above, the 32-bit
`int bucket_end` wraps negative (the same conversion that turns `npos`
into `-1`), the code takes the no-slash branch, and the whole remainder is
returned as the bucket with an empty key — not `(b, k)`. -/
theorem parsePath_int_wraparound (b k : Str) (hs : '/' ∉ b)
    (hlow : 2 ^ 31 ≤ 5 + b.length) (hhigh : 5 + b.length < 2 ^ 32) :
    parsePath (gcsUrlHead ++ b ++ '/' :: k) =
      Except.ok (StatusCode.OK, b ++ '/' :: k, ([] : Str)) := by
  have hb : b ≠ [] := by
    intro hnil
    rw [hnil] at hlow
    simp at hlow
  have hsz5 : intToSizeT 5 = 5 := by decide
  have hpfx : gcsUrlHead.isPrefixOf (gcsUrlHead ++ b ++ '/' :: k) = true := by
    rw [List.append_assoc]
    exact List.isPrefixOf_iff_prefix.mpr (List.prefix_append _ _)
  have hfind : strFind (gcsUrlHead ++ b ++ '/' :: k) gcsUrlHead = some 0 :=
    subIdx_isPrefixOf _ _ hpfx
  have hdrop5 : (gcsUrlHead ++ b ++ '/' :: k).drop 5 = b ++ '/' :: k := by
    rw [List.append_assoc]
    exact List.drop_left' rfl
  have hchar : charFindFrom (gcsUrlHead ++ b ++ '/' :: k) '/' 5 = some (5 + b.length) := by
    unfold charFindFrom
    rw [hdrop5, charIdx_append_cons _ _ _ hs]
    rfl
  unfold parsePath
  simp only [hfind]
  have hcast : cppInt (0 + List.length gcsUrlHead) = 5 := by decide
  rw [hcast, hsz5]
  simp only [hchar]
  have hbe : cppInt (5 + b.length) = ((5 + b.length : Nat) : Int) - 2 ^ 32 := by
    unfold cppInt
    rw [Nat.mod_eq_of_lt (by omega), if_neg (by omega)]
  rw [hbe]
  rw [if_neg (by push_cast; omega)]
  have hsub : substrFrom (gcsUrlHead ++ b ++ '/' :: k) 5 = Except.ok (b ++ '/' :: k) := by
    unfold substrFrom
    rw [if_pos (by simp [List.length_append, gcsUrlHead_length]), hdrop5]
  rw [hsub]
  simp [hb]

theorem parsePath_ne_nil (path b o : Str)
    (hp : parsePath path = Except.ok (StatusCode.OK, b, o)) : path ≠ [] := by
  intro h
  rw [h, parsePath_nil] at hp
  exact Except.noConfusion hp

theorem isDirectory_eval (env : Env) (path b o : Str)
    (hp : parsePath path = Except.ok (StatusCode.OK, b, o)) :
    isDirectory env path =
      Except.ok (StatusCode.OK,
        (env.listObjects b (appendSlash o)).any (fun m => m.isSome)) := by
  have hne := parsePath_ne_nil path b o hp
  unfold isDirectory
  rw [hp]
  simp [hne]

theorem fileExists_eval (env : Env) (path b o : Str)
    (hp : parsePath path = Except.ok (StatusCode.OK, b, o)) :
    fileExists env path =
      Except.ok (StatusCode.OK,
        env.metadataOk b o ||
          (env.listObjects b (appendSlash o)).any (fun m => m.isSome)) := by
  unfold fileExists
  rw [hp, isDirectory_eval env path b o hp]
  cases hmeta : env.metadataOk b o <;> simp [hmeta]

/-- C4 witness: the amended statement applied at the concrete bucket `bkt`
and key `a/w.bin`. -/
theorem c4_parsePath_amended_witness :
    ("bkt".toList ≠ ([] : Str)) ∧ '/' ∉ "bkt".toList ∧ 5 + "bkt".toList.length < 2 ^ 31 ∧
    (parsePath (gcsUrlHead ++ "bkt".toList ++ '/' :: "a/w.bin".toList) =
      Except.ok (StatusCode.OK, "bkt".toList, "a/w.bin".toList) ∧
    parsePath (gcsUrlHead ++ "bkt".toList) =
      Except.ok (StatusCode.OK, "bkt".toList, ([] : Str)) ∧
    parsePath gcsUrlHead = Except.ok (StatusCode.GCS_BUCKET_NOT_FOUND, [], ([] : Str))) :=
  ⟨by decide, by decide, by decide,
    c4_parsePath_amended _ _ (by decide) (by decide) (by decide)⟩

/-- C6: for every path that resolves to `(b, o)`, `fileExists` returns `OK`
with `exists` true exactly when the metadata probe succeeds or the
directory probe answers true; moreover, when the metadata probe succeeds
the result is `true` whatever the listing oracle says (no further probe
influences it). -/
theorem c6_fileExists_probes (env : Env) (path b o : Str)
    (hp : parsePath path = Except.ok (StatusCode.OK, b, o)) :
    fileExists env path =
      Except.ok (StatusCode.OK,
        env.metadataOk b o ||
          (env.listObjects b (appendSlash o)).any (fun m => m.isSome)) ∧
    (env.metadataOk b o = true →
      ∀ L, fileExists { env with listObjects := L } path =
        Except.ok (StatusCode.OK, true)) := by
  refine ⟨fileExists_eval env path b o hp, fun hm L => ?_⟩
  have h2 := fileExists_eval { env with listObjects := L } path b o hp
  simp only at h2
  rw [hm] at h2
  simpa using h2

/-- C6 witness: `fileExists` on the store `envOK` at `gs://b/k`. -/
theorem c6_fileExists_probes_witness :
    parsePath "gs://b/k".toList = Except.ok (StatusCode.OK, "b".toList, "k".toList) ∧
    (fileExists envOK "gs://b/k".toList =
      Except.ok (StatusCode.OK,
        envOK.metadataOk "b".toList "k".toList ||
          (envOK.listObjects "b".toList (appendSlash "k".toList)).any (fun m => m.isSome)) ∧
    (envOK.metadataOk "b".toList "k".toList = true →
      ∀ L, fileExists { envOK with listObjects := L } "gs://b/k".toList =
        Except.ok (StatusCode.OK, true))) :=
  ⟨rfl, c6_fileExists_probes envOK "gs://b/k".toList _ _ rfl⟩

/-- C9: for every path that resolves to `(b, o)`, `readTextFile` returns
`GCS_FILE_NOT_FOUND` when `fileExists` reports the path absent,
`GCS_FILE_INVALID` when the read stream fails to open, and otherwise `OK`
together with the object's bytes; the contents out-parameter is assigned
only in the `OK` case. -/
theorem c9_readTextFile_cases (env : Env) (path b o : Str)
    (hp : parsePath path = Except.ok (StatusCode.OK, b, o)) :
    readTextFile env path =
      if env.metadataOk b o ||
          (env.listObjects b (appendSlash o)).any (fun m => m.isSome) then
        match env.readObject b o with
        | none => Except.ok (StatusCode.GCS_FILE_INVALID, none)
        | some data => Except.ok (StatusCode.OK, some data)
      else Except.ok (StatusCode.GCS_FILE_NOT_FOUND, none) := by
  unfold readTextFile
  rw [fileExists_eval env path b o hp]
  cases hex : (env.metadataOk b o ||
      (env.listObjects b (appendSlash o)).any (fun m => m.isSome)) with
  | false => simp
  | true =>
    simp only [hp]
    cases env.readObject b o <;> simp

/-- C9 witness: `readTextFile` on the store `envOK` at `gs://b/k`. -/
theorem c9_readTextFile_cases_witness :
    parsePath "gs://b/k".toList = Except.ok (StatusCode.OK, "b".toList, "k".toList) ∧
    readTextFile envOK "gs://b/k".toList =
      (if envOK.metadataOk "b".toList "k".toList ||
          (envOK.listObjects "b".toList (appendSlash "k".toList)).any (fun m => m.isSome) then
        match envOK.readObject "b".toList "k".toList with
        | none => Except.ok (StatusCode.GCS_FILE_INVALID, none)
        | some data => Except.ok (StatusCode.OK, some data)
      else Except.ok (StatusCode.GCS_FILE_NOT_FOUND, none)) :=
  ⟨rfl, c9_readTextFile_cases envOK "gs://b/k".toList _ _ rfl⟩

/-- C10: whenever the remote read succeeds, `downloadFile` returns `OK` and
streams the bytes to the local path; the recorded stream state
`env.writeOk localPath` (possibly `false`, a failed local write) is never
consulted for the status. -/
theorem c10_downloadFile_ignores_write (env : Env) (remotePath localPath d : Str)
    (hr : readTextFile env remotePath = Except.ok (StatusCode.OK, some d)) :
    downloadFile env remotePath localPath =
      Except.ok (StatusCode.OK,
        [FsEvent.write localPath d (env.writeOk localPath)]) := by
  unfold downloadFile
  rw [hr]
  simp

/-- C10 witness: on `envOK`, whose local writes all fail
(`writeOk = false`), `downloadFile` still reports `OK`. -/
theorem c10_downloadFile_ignores_write_witness :
    readTextFile envOK "gs://b/k".toList = Except.ok (StatusCode.OK, some "abc".toList) ∧
    envOK.writeOk "/loc".toList = false ∧
    downloadFile envOK "gs://b/k".toList "/loc".toList =
      Except.ok (StatusCode.OK,
        [FsEvent.write "/loc".toList "abc".toList (envOK.writeOk "/loc".toList)]) :=
  ⟨rfl, rfl, c10_downloadFile_ignores_write envOK _ _ _ rfl⟩

theorem isSuffixOf_nil_false (x : Str) (hx : x ≠ []) :
    x.isSuffixOf ([] : Str) = false := by
  cases hsf : x.isSuffixOf ([] : Str) with
  | false => rfl
  | true => exact absurd (List.suffix_nil.mp (List.isSuffixOf_iff_suffix.mp hsf)) hx

theorem fileAccepted_eq_spec (accepted : List Str) (f : Str)
    (hne : ∀ x ∈ accepted, x ≠ []) :
    fileAccepted accepted f = specAccepted accepted f := by
  unfold fileAccepted specAccepted
  induction accepted with
  | nil => rfl
  | cons x xs ih =>
    simp only [List.any_cons]
    rw [ih (fun y hy => hne y (List.mem_cons_of_mem _ hy))]
    cases f with
    | nil =>
      have hx := hne x (List.mem_cons_self _ _)
      simp [endsWith, isSuffixOf_nil_false x hx]
    | cons c r => simp

set_option maxHeartbeats 1600000 in
/-- C8: over any file list, the file loop of `downloadFileFolder` downloads
a file (to the joined local path) exactly when its name ends with one of
the accepted suffix patterns, and it skips every non-matching file without
error and without a download attempt: the result is `OK` and the event
trace is exactly the downloads of the accepted files, in order.  (The
patterns are assumed non-empty, as the real extension set is; `D f` is the
remote content of file `f`.) -/
theorem c8_fileLoop_filter (env : Env) (path localPath : Str) (files : List Str)
    (D : Str → Str)
    (hne : ∀ x ∈ env.acceptedFiles, x ≠ [])
    (hdl : ∀ f ∈ files, specAccepted env.acceptedFiles f = true →
      downloadFile env (joinPath path f) (joinPath localPath f) =
        Except.ok (StatusCode.OK,
          [FsEvent.write (joinPath localPath f) (D f)
            (env.writeOk (joinPath localPath f))])) :
    fileLoop env path localPath files =
      Except.ok (StatusCode.OK,
        (files.filter (fun f => specAccepted env.acceptedFiles f)).map
          (fun f => FsEvent.write (joinPath localPath f) (D f)
            (env.writeOk (joinPath localPath f)))) := by
  induction files with
  | nil => rfl
  | cons f rest ih =>
    have hrest := ih (fun g hg hacc => hdl g (List.mem_cons_of_mem _ hg) hacc)
    unfold fileLoop
    rw [fileAccepted_eq_spec _ _ hne]
    by_cases hacc : specAccepted env.acceptedFiles f = true
    · rw [if_pos hacc, hdl f (List.mem_cons_self _ _) hacc, hrest]
      simp [List.filter_cons, hacc]
    · rw [if_neg hacc, hrest]
      simp [List.filter_cons, hacc]

/-- C8 witness: on the store `envC8`, the loop over `[w.bin, x.txt]`
downloads only `w.bin` and skips `x.txt` without error. -/
theorem c8_fileLoop_filter_witness :
    (∀ x ∈ envC8.acceptedFiles, x ≠ []) ∧
    fileLoop envC8 "gs://b/d".toList "/l".toList ["w.bin".toList, "x.txt".toList] =
      Except.ok (StatusCode.OK,
        ((["w.bin".toList, "x.txt".toList].filter
            (fun f => specAccepted envC8.acceptedFiles f)).map
          (fun f => FsEvent.write (joinPath "/l".toList f) ((fun _ => "DATA".toList) f)
            (envC8.writeOk (joinPath "/l".toList f))))) :=
  ⟨by decide,
    c8_fileLoop_filter envC8 "gs://b/d".toList "/l".toList
      ["w.bin".toList, "x.txt".toList] (fun _ => "DATA".toList) (by decide)
      (fun f hf hacc => by
        rcases List.mem_cons.mp hf with rfl | hf2
        · rfl
        · rcases List.mem_cons.mp hf2 with rfl | hf3
          · exact absurd hacc (by decide)
          · exact absurd hf3 (List.not_mem_nil _))⟩

theorem foldl_step_lastNonOK (l : List StatusCode) (acc : StatusCode) :
    l.foldl (fun a s => if s ≠ StatusCode.OK then s else a) acc =
      (l.filter (fun s => decide (s ≠ StatusCode.OK))).getLastD acc := by
  induction l generalizing acc with
  | nil => rfl
  | cons s t ih =>
    simp only [List.foldl_cons, List.filter_cons]
    by_cases hs : s = StatusCode.OK
    · subst hs
      rw [if_neg (by simp), if_neg (by simp)]
      exact ih acc
    · rw [if_pos hs, if_pos (by simp [hs]), List.getLastD_cons]
      exact ih s

theorem versionLoop_spec (env : Env) (fuel : Nat) (path lroot : Str)
    (versions : List Nat) (acc : StatusCode)
    (hv : ∀ v ∈ versions, ∃ st e,
      verResult env fuel path lroot v = some (Except.ok (st, e))) :
    versionLoop env fuel path lroot versions acc =
      some (Except.ok (
        (versions.map (fun v => resStatusD (verResult env fuel path lroot v))).foldl
          (fun a s => if s ≠ StatusCode.OK then s else a) acc,
        (versions.map (fun v =>
          FsEvent.mkdir (verPath lroot v) ::
            resEventsD (verResult env fuel path lroot v))).flatten)) := by
  induction versions generalizing acc with
  | nil => rfl
  | cons v vs ih =>
    obtain ⟨st, e, he⟩ := hv v (List.mem_cons_self _ _)
    have he2 : downloadFileFolder env fuel (verPath path v) (verPath lroot v) =
        some (Except.ok (st, e)) := he
    have hrest := ih (if st ≠ StatusCode.OK then st else acc)
      (fun w hw => hv w (List.mem_cons_of_mem _ hw))
    simp only [versionLoop]
    simp only [he2]
    rw [hrest]
    simp [resStatusD, resEventsD, verResult, he2]

/-- C5: when the temp path is created and every per-version tree download
returns normally, `downloadModelVersions` attempts every requested version
(the trace is the concatenation of each version's `create_directory` and
download events, none skipped), and the returned status is the status of
the last version that failed, `OK` when none failed. -/
theorem c5_downloadModelVersions_batch (env : Env) (fuel : Nat) (path : Str)
    (versions : List Nat)
    (ht : env.tempStatus = StatusCode.OK)
    (hv : ∀ v ∈ versions, ∃ st e,
      verResult env fuel path env.tempPath v = some (Except.ok (st, e))) :
    downloadModelVersions env fuel path versions =
      some (Except.ok (
        lastNonOK (versions.map
          (fun v => resStatusD (verResult env fuel path env.tempPath v))),
        env.tempPath,
        (versions.map (fun v =>
          FsEvent.mkdir (verPath env.tempPath v) ::
            resEventsD (verResult env fuel path env.tempPath v))).flatten)) := by
  unfold downloadModelVersions
  rw [ht]
  simp only [ne_eq, not_true_eq_false, if_false, reduceCtorEq]
  rw [versionLoop_spec env fuel path env.tempPath versions StatusCode.OK hv,
    foldl_step_lastNonOK]
  rfl

/-- C5 witness: on the store `envC5`, versions `[1, 2]` where version 2
does not exist: version 1 is downloaded, version 2's directory is still
created and attempted, and the returned status is version 2's
`GCS_FILE_NOT_FOUND`. -/
theorem c5_downloadModelVersions_batch_witness :
    downloadModelVersions envC5 2 "gs://b/m".toList [1, 2] =
      some (Except.ok (StatusCode.GCS_FILE_NOT_FOUND, "/t".toList,
        [FsEvent.mkdir "/t/1".toList,
          FsEvent.write "/t/1/w.bin".toList "DATA".toList true,
          FsEvent.mkdir "/t/2".toList])) ∧
    envC5.tempStatus = StatusCode.OK ∧
    downloadModelVersions envC5 2 "gs://b/m".toList [1, 2] =
      some (Except.ok (
        lastNonOK ([1, 2].map
          (fun v => resStatusD (verResult envC5 2 "gs://b/m".toList envC5.tempPath v))),
        envC5.tempPath,
        ([1, 2].map (fun v =>
          FsEvent.mkdir (verPath envC5.tempPath v) ::
            resEventsD (verResult envC5 2 "gs://b/m".toList envC5.tempPath v))).flatten)) :=
  ⟨rfl, rfl,
    c5_downloadModelVersions_batch envC5 2 "gs://b/m".toList [1, 2] rfl
      (fun v hv => by
        rcases List.mem_cons.mp hv with rfl | h2
        · exact ⟨StatusCode.OK,
            [FsEvent.write "/t/1/w.bin".toList "DATA".toList true], rfl⟩
        rcases List.mem_cons.mp h2 with rfl | h3
        · exact ⟨StatusCode.GCS_FILE_NOT_FOUND, [], rfl⟩
        · exact absurd h3 (List.not_mem_nil _))⟩

end GCSFS
